import Mathlib

/-!
# Verification of the PlantUML editor's snapshot persistence subsystem

Shallow embedding of `src/js/app.js` — the file-management layer over
`localStorage` (functions `getAllFiles`, `saveAllFiles`, `saveDefaultFile`,
`loadDefaultFile`, `saveFile`, `deleteFile`, `loadFileIntoEditor`,
`validateFileName`), the `debounce` utility used by the autosave
coordinator, and the share-URL encoding (`encodePlantuml` /
`decodePlantuml`).

`localStorage` is modelled as a `Store` record with one field per storage
key used by the program (`plantuml-files` and `plantuml-default`).  The
raw value under `plantuml-files` is modelled by `StoredFiles`: it is
either absent, holds a well-formed serialized file list, or holds
malformed data (`corrupt`) on which `JSON.parse` would throw.
Timestamps (`new Date().toISOString()`) are opaque strings passed in as a
`now` parameter; `Date.now()` used in id generation is a `Nat` parameter.
-/

namespace PlantumlEditor

/-- A file record as stored in the `plantuml-files` collection:
`{id, name, content, createdAt, lastModified}`. The spec calls these
records snapshots; the record with id `"default"` is the working copy. -/
structure Snapshot where
  id : String
  name : String
  content : String
  createdAt : String
  lastModified : String
  deriving Repr, DecidableEq

/-- The raw value persisted under the `plantuml-files` key: absent,
a well-formed serialized list, or malformed data on which `JSON.parse`
throws (caught by `getAllFiles`). -/
inductive StoredFiles where
  | absent
  | corrupt
  | valid (files : List Snapshot)
  deriving Repr, DecidableEq

/-- The browser `localStorage`, restricted to the two keys the program
uses: `plantuml-files` (the collection) and `plantuml-default` (the
fast-path copy of the working copy's content). -/
structure Store where
  files : StoredFiles
  defaultContent : Option String
  deriving Repr, DecidableEq

/-- A fresh store: nothing persisted yet. -/
def emptyStore : Store := { files := .absent, defaultContent := none }

/-- `getAllFiles()`: reads `plantuml-files`; an absent key yields `[]`
(`filesJson ? JSON.parse(filesJson) : []`), and a `JSON.parse` error is
caught and also yields `[]`. -/
def getAllFiles (s : Store) : List Snapshot :=
  match s.files with
  | .valid fs => fs
  | _ => []

/-- `saveAllFiles(files)`: writes the serialized list to `plantuml-files`.
(The quota-exceeded catch branch only alerts; the write model here is the
success path, which is all the claims quantify over.) -/
def saveAllFiles (s : Store) (files : List Snapshot) : Store :=
  { s with files := .valid files }

/-- Update the first element satisfying `p` by `g`, leaving the rest in
place — the effect of `files.findIndex(...)` followed by an in-place
update of `files[index]` in `saveDefaultFile`. -/
def updateFirst (p : Snapshot → Bool) (g : Snapshot → Snapshot) :
    List Snapshot → List Snapshot
  | [] => []
  | f :: rest => if p f then g f :: rest else f :: updateFirst p g rest

/-- `saveDefaultFile(content)` (the spec's `saveWorkingCopy`): writes
`content` to the `plantuml-default` key, then updates the metadata
collection: if a file with id `"default"` exists (`findIndex >= 0`) its
`content` and `lastModified` are updated in place, otherwise a fresh
default record is `unshift`ed to the front; the collection is persisted. -/
def saveDefaultFile (s : Store) (content now : String) : Store :=
  let s1 : Store := { s with defaultContent := some content }
  let files := getAllFiles s1
  let files' :=
    if files.any (fun f => f.id = "default") then
      updateFirst (fun f => f.id = "default")
        (fun f => { f with content := content, lastModified := now }) files
    else
      { id := "default", name := "default", content := content,
        createdAt := now, lastModified := now } :: files
  saveAllFiles s1 files'

/-- The seed diagram literal from `loadDefaultFile`. -/
def seedDiagram : String := "@startuml\nBob -> Alice: Hello!\n@enduml"

/-- `loadDefaultFile()` (the spec's `getWorkingCopy`): returns
`localStorage.getItem('plantuml-default') || seed`.  JavaScript's `||`
falls through to the seed both when the key is absent (`null`) and when
the stored content is the empty string (falsy). -/
def loadDefaultFile (s : Store) : String :=
  match s.defaultContent with
  | none => seedDiagram
  | some c => if c = "" then seedDiagram else c

/-- The id generated by `saveFile`:
`'file-' + Date.now() + '-' + Math.random().toString(36).substring(2, 11)`,
with the clock reading and the random suffix as parameters. -/
def freshId (nowMs : Nat) (rand : String) : String :=
  "file-" ++ toString nowMs ++ "-" ++ rand

/-- `saveFile(name, content)`: appends (`push`) a fresh record with a
generated id and `createdAt = lastModified = now` to the collection and
persists it, returning the new record. -/
def saveFile (s : Store) (name content now : String) (nowMs : Nat)
    (rand : String) : Store × Snapshot :=
  let files := getAllFiles s
  let newFile : Snapshot :=
    { id := freshId nowMs rand, name := name, content := content,
      createdAt := now, lastModified := now }
  (saveAllFiles s (files ++ [newFile]), newFile)

/-- `deleteFile(fileId)`: refuses id `"default"` before touching the
store; otherwise filters the record out, returning `false` without a
write when nothing matched. -/
def deleteFile (s : Store) (fileId : String) : Store × Bool :=
  if fileId = "default" then (s, false)
  else
    let files := getAllFiles s
    let filtered := files.filter (fun f => f.id ≠ fileId)
    if filtered.length = files.length then (s, false)
    else (saveAllFiles s filtered, true)

/-- `loadFileIntoEditor(fileId)` (the spec's `loadIntoWorkingCopy`):
finds the record by id; when absent returns failure without a write;
otherwise loads its content into the editor (returned here as the second
component) and copies it into the working copy via `saveDefaultFile`. -/
def loadFileIntoEditor (s : Store) (fileId now : String) :
    Store × Option String :=
  let files := getAllFiles s
  match files.find? (fun f => f.id = fileId) with
  | none => (s, none)
  | some f => (saveDefaultFile s f.content now, some f.content)

/-- The validation errors of `validateFileName`. -/
inductive NameError where
  | emptyName
  | reservedName
  | duplicateName
  deriving Repr, DecidableEq

/-- The characters ECMA-262 `String.prototype.trim` strips: *WhiteSpace*
(tab U+0009, VT U+000B, FF U+000C, ZWNBSP U+FEFF, and every
space-separator category character: U+0020, U+00A0, U+1680,
U+2000..U+200A, U+202F, U+205F, U+3000) and *LineTerminator* (LF U+000A,
CR U+000D, LS U+2028, PS U+2029). -/
def jsWhitespace (c : Char) : Bool :=
  c.toNat = 0x09 ∨ c.toNat = 0x0A ∨ c.toNat = 0x0B ∨ c.toNat = 0x0C ∨
  c.toNat = 0x0D ∨ c.toNat = 0x20 ∨ c.toNat = 0xA0 ∨ c.toNat = 0x1680 ∨
  (0x2000 ≤ c.toNat ∧ c.toNat ≤ 0x200A) ∨ c.toNat = 0x2028 ∨
  c.toNat = 0x2029 ∨ c.toNat = 0x202F ∨ c.toNat = 0x205F ∨
  c.toNat = 0x3000 ∨ c.toNat = 0xFEFF

/-- The JavaScript `name.trim()` call: strip leading and trailing
`jsWhitespace` characters, modelled over the character list. -/
def jsTrim (s : String) : String :=
  String.mk
    (((s.data.dropWhile jsWhitespace).reverse.dropWhile
      jsWhitespace).reverse)

/-- `validateFileName(name, files)`: empty / whitespace-only
(`!name || name.trim() === ''`) → empty-name error; the literal
`'default'` → reserved-name error; an exact match with an existing
record's `name` → duplicate-name error; otherwise valid (`none`). -/
def validateFileName (name : String) (files : List Snapshot) :
    Option NameError :=
  if jsTrim name = "" then some .emptyName
  else if name = "default" then some .reservedName
  else if files.any (fun f => f.name = name) then some .duplicateName
  else none

/-- The spec's `createSnapshot(name, content)`: validate the name against
the current collection and, when valid, persist via `saveFile` — the
composition performed by `handleSaveAs`.  On a validation error the store
is returned untouched. -/
def createSnapshot (s : Store) (name content now : String) (nowMs : Nat)
    (rand : String) : Store × Except NameError Snapshot :=
  match validateFileName name (getAllFiles s) with
  | some e => (s, .error e)
  | none =>
    let (s', f) := saveFile s name content now nowMs rand
    (s', .ok f)

/-! ## Autosave debounce

`debounce(func, delay)` keeps a single `timerId`; every invocation runs
`clearTimeout(timerId)` and re-arms `setTimeout(func, delay)`.  With the
program single-threaded, the observable behaviour on a time-stamped trace
of invocation events (times in milliseconds, in arrival order) is: the
timer armed at event time `t` fires at `t + delay` unless a later event
arrives strictly before that moment, in which case it is cancelled and
replaced.  `debounceFires` returns the list of firing times. -/

/-- Firing times of a trailing-edge debounced callback over an ordered
event trace. -/
def debounceFires (delay : Nat) : List Nat → List Nat
  | [] => []
  | [t] => [t + delay]
  | t :: t' :: rest =>
    if t' < t + delay then debounceFires delay (t' :: rest)
    else (t + delay) :: debounceFires delay (t' :: rest)

/-- The fixed delay of `debouncedAutoSave = debounce(..., 2000)`. -/
def autosaveDelay : Nat := 2000

/-- The times at which `debouncedAutoSave` actually invokes
`saveDefaultFile`, given the times of the buffer-change events. -/
def autosaveCalls (changeTimes : List Nat) : List Nat :=
  debounceFires autosaveDelay changeTimes

/-! ## Share-URL encoding

`encodePlantuml` builds `encodeURIComponent(text)` and collapses every
`%XX` escape back to the raw character of that code; the composite turns
the text into the string of its UTF-8 bytes (each char code < 256).  We
embed that composite as `utf8Encode` over byte lists.  `btoa` / `atob`
are the browser builtins, modelled from their specification
(RFC 4648 base64 with `=` padding; `atob` implements forgiving-base64:
strip up to two trailing `=` when the length is a multiple of four, then
reject a length ≡ 1 (mod 4) or any character outside the alphabet).
The final percent-decoding step of `decodePlantuml`
(`decodeURIComponent` over `%xx` escapes of each byte) is `utf8Decode`,
which fails on malformed sequences. -/

/-- UTF-8 encoding of a single character (what `encodeURIComponent`
produces for it, with `%XX` escapes collapsed to bytes). -/
def utf8EncodeChar (c : Char) : List Nat :=
  let v := c.toNat
  if v < 0x80 then [v]
  else if v < 0x800 then [0xC0 + v / 64, 0x80 + v % 64]
  else if v < 0x10000 then [0xE0 + v / 4096, 0x80 + v / 64 % 64, 0x80 + v % 64]
  else [0xF0 + v / 262144, 0x80 + v / 4096 % 64, 0x80 + v / 64 % 64, 0x80 + v % 64]

/-- UTF-8 bytes of a string. -/
def utf8Encode (t : String) : List Nat :=
  (t.data.map utf8EncodeChar).flatten

/-- Decode one UTF-8 sequence from its first byte `b` and the bytes
after it: the decoded character and the bytes remaining after the
sequence; `none` on a malformed sequence (stray or missing continuation
byte, or a value that is not a Unicode scalar). -/
def utf8DecodeChar (b : Nat) (rest : List Nat) : Option (Char × List Nat) :=
  if b < 0x80 then some (Char.ofNat b, rest)
  else if b < 0xC0 then none
  else if b < 0xE0 then
    match rest with
    | b2 :: rest2 =>
      if 0x80 ≤ b2 ∧ b2 < 0xC0 then
        let v := (b - 0xC0) * 64 + (b2 - 0x80)
        if Nat.isValidChar v then some (Char.ofNat v, rest2) else none
      else none
    | [] => none
  else if b < 0xF0 then
    match rest with
    | b2 :: b3 :: rest3 =>
      if (0x80 ≤ b2 ∧ b2 < 0xC0) ∧ (0x80 ≤ b3 ∧ b3 < 0xC0) then
        let v := (b - 0xE0) * 4096 + (b2 - 0x80) * 64 + (b3 - 0x80)
        if Nat.isValidChar v then some (Char.ofNat v, rest3) else none
      else none
    | _ => none
  else
    match rest with
    | b2 :: b3 :: b4 :: rest4 =>
      if (0x80 ≤ b2 ∧ b2 < 0xC0) ∧ (0x80 ≤ b3 ∧ b3 < 0xC0) ∧
          (0x80 ≤ b4 ∧ b4 < 0xC0) then
        let v := (b - 0xF0) * 262144 + (b2 - 0x80) * 4096 +
          (b3 - 0x80) * 64 + (b4 - 0x80)
        if Nat.isValidChar v then some (Char.ofNat v, rest4) else none
      else none
    | _ => none

/-- Decode a whole byte list, sequence by sequence.  The recursion is
driven by a fuel bound: each step consumes at least one byte, so a fuel
of the list length always suffices (see `utf8Decode`). -/
def utf8DecodeAux : Nat → List Nat → Option (List Char)
  | _, [] => some []
  | 0, _ :: _ => none
  | fuel + 1, b :: rest =>
    match utf8DecodeChar b rest with
    | none => none
    | some (c, rest2) => (utf8DecodeAux fuel rest2).map (fun cs => c :: cs)

/-- UTF-8 decoding of a byte list back to characters (the
`decodeURIComponent` step); `none` on malformed input. -/
def utf8Decode (l : List Nat) : Option (List Char) :=
  utf8DecodeAux l.length l

/-- The standard base64 alphabet used by `btoa` / `atob`. -/
def b64Table : List Char :=
  ['A', 'B', 'C', 'D', 'E', 'F', 'G', 'H', 'I', 'J', 'K', 'L', 'M',
   'N', 'O', 'P', 'Q', 'R', 'S', 'T', 'U', 'V', 'W', 'X', 'Y', 'Z',
   'a', 'b', 'c', 'd', 'e', 'f', 'g', 'h', 'i', 'j', 'k', 'l', 'm',
   'n', 'o', 'p', 'q', 'r', 's', 't', 'u', 'v', 'w', 'x', 'y', 'z',
   '0', '1', '2', '3', '4', '5', '6', '7', '8', '9', '+', '/']

/-- Alphabet character of a 6-bit value. -/
def b64Char (n : Nat) : Char := b64Table.getD n 'A'

/-- Index of a character in the base64 alphabet. -/
def b64Index (c : Char) : Nat := b64Table.indexOf c

/-- Split bytes into 6-bit groups (base64 without padding): three bytes
yield four sextets; a trailing byte or byte pair yields two or three
sextets with zero fill. -/
def b64Chunks : List Nat → List Nat
  | [] => []
  | [b1] => [b1 / 4, b1 % 4 * 16]
  | [b1, b2] => [b1 / 4, b1 % 4 * 16 + b2 / 16, b2 % 16 * 4]
  | b1 :: b2 :: b3 :: rest =>
    b1 / 4 :: (b1 % 4 * 16 + b2 / 16) :: (b2 % 16 * 4 + b3 / 64) ::
      b3 % 64 :: b64Chunks rest

/-- Reassemble bytes from 6-bit groups (inverse of `b64Chunks`); a
trailing singleton cannot arise from a well-formed encoding and decodes
to nothing. -/
def b64Unchunks : List Nat → List Nat
  | [] => []
  | [_] => []
  | [s1, s2] => [s1 * 4 + s2 / 16]
  | [s1, s2, s3] => [s1 * 4 + s2 / 16, s2 % 16 * 16 + s3 / 4]
  | s1 :: s2 :: s3 :: s4 :: rest =>
    (s1 * 4 + s2 / 16) :: (s2 % 16 * 16 + s3 / 4) ::
      (s3 % 4 * 64 + s4) :: b64Unchunks rest

/-- `btoa`, modelled from its specification: base64 characters of the
byte list, `=`-padded to a multiple of four characters. -/
def btoa (bytes : List Nat) : List Char :=
  (b64Chunks bytes).map b64Char ++
    List.replicate ((3 - bytes.length % 3) % 3) '='

/-- Remove up to two trailing `=` when the length is a multiple of four
(the padding step of forgiving-base64). -/
def removePadding (l : List Char) : List Char :=
  if l.length % 4 = 0 then
    match l.reverse with
    | c1 :: c2 :: r =>
      if c1 = '=' then (if c2 = '=' then r.reverse else (c2 :: r).reverse)
      else l
    | _ => l
  else l

/-- `atob`, modelled from its specification (forgiving-base64): remove
padding, reject a length ≡ 1 (mod 4) or characters outside the alphabet,
then reassemble the bytes. -/
def atob (l : List Char) : Option (List Nat) :=
  let body := removePadding l
  if body.length % 4 = 1 then none
  else if body.all (fun c => b64Table.contains c) then
    some (b64Unchunks (body.map b64Index))
  else none

/-- The substitution step of `encodePlantuml`, per character: a plus
becomes a dash and a forward slash becomes an underscore. -/
def urlSafeChar (c : Char) : Char :=
  if c = '+' then '-' else if c = '/' then '_' else c

/-- The reverse substitution step of `decodePlantuml`, per character: a
dash becomes a plus and an underscore becomes a forward slash. -/
def unUrlSafeChar (c : Char) : Char :=
  if c = '-' then '+' else if c = '_' then '/' else c

/-- Drop every trailing `=` (the padding-stripping step of
`encodePlantuml`). -/
def stripTrailingEq (l : List Char) : List Char :=
  (l.reverse.dropWhile (fun c => c = '=')).reverse

/-- `encodePlantuml(text)`: UTF-8 bytes of the text, `btoa`, `+`/`/`
replaced by `-`/`_`, trailing padding stripped. -/
def encodePlantuml (text : String) : String :=
  String.mk (stripTrailingEq ((btoa (utf8Encode text)).map urlSafeChar))

/-- `decodePlantuml(encoded)`: reverse the `-`/`_` substitution, re-pad
with `=` until the length is a multiple of four (`while (base64.length %
4) base64 += '='`), `atob`, then percent-decode the bytes as UTF-8.
`none` models the exceptions `atob` / `decodeURIComponent` throw on
malformed input. -/
def decodePlantuml (encoded : String) : Option String :=
  let base64 := encoded.data.map unUrlSafeChar
  let padded := base64 ++ List.replicate ((4 - base64.length % 4) % 4) '='
  match atob padded with
  | none => none
  | some bytes => (utf8Decode bytes).map String.mk

/-! ## Helper lemmas -/

/-- `getAllFiles` ignores the `plantuml-default` key. -/
theorem getAllFiles_set_default (s : Store) (d : Option String) :
    getAllFiles { s with defaultContent := d } = getAllFiles s := rfl

/-- What the working copy reads back right after a save: the saved
content, except that empty content falls through to the seed. -/
theorem loadDefaultFile_saveDefaultFile (s : Store) (c now : String) :
    loadDefaultFile (saveDefaultFile s c now) =
      if c = "" then seedDiagram else c := by
  simp only [saveDefaultFile, saveAllFiles, loadDefaultFile]

/-- `find?` for the updated predicate after `updateFirst`: the first
match is rewritten by `g`, provided `g` preserves the predicate. -/
theorem updateFirst_find?_self (p : Snapshot → Bool) (g : Snapshot → Snapshot)
    (hg : ∀ x, p (g x) = p x) (l : List Snapshot) :
    (updateFirst p g l).find? p = (l.find? p).map g := by
  induction l with
  | nil => rfl
  | cons f rest ih =>
    by_cases hf : p f = true
    · rw [updateFirst, if_pos hf, List.find?_cons_of_pos _ ((hg f).trans hf),
        List.find?_cons_of_pos _ hf, Option.map_some']
    · rw [updateFirst, if_neg hf, List.find?_cons_of_neg _ hf,
        List.find?_cons_of_neg _ hf, ih]

/-- `find?` for a predicate disjoint from the updated one is untouched by
`updateFirst`. -/
theorem updateFirst_find?_other (p q : Snapshot → Bool) (g : Snapshot → Snapshot)
    (hq : ∀ x, q (g x) = q x) (hpq : ∀ x, p x = true → q x = false)
    (l : List Snapshot) :
    (updateFirst p g l).find? q = l.find? q := by
  induction l with
  | nil => rfl
  | cons f rest ih =>
    by_cases hf : p f = true
    · have hqf : q f = false := hpq f hf
      rw [updateFirst, if_pos hf,
        List.find?_cons_of_neg _ (by simp [hq f, hqf]),
        List.find?_cons_of_neg _ (by simp [hqf])]
    · by_cases hqf : q f = true
      · rw [updateFirst, if_neg hf, List.find?_cons_of_pos _ hqf,
          List.find?_cons_of_pos _ hqf]
      · rw [updateFirst, if_neg hf, List.find?_cons_of_neg _ hqf,
          List.find?_cons_of_neg _ hqf, ih]

/-- `updateFirst` does not change how many elements satisfy a predicate
the update function preserves. -/
theorem updateFirst_filter_length (p q : Snapshot → Bool)
    (g : Snapshot → Snapshot) (hq : ∀ x, q (g x) = q x) (l : List Snapshot) :
    ((updateFirst p g l).filter q).length = (l.filter q).length := by
  induction l with
  | nil => rfl
  | cons f rest ih =>
    by_cases hf : p f = true
    · rw [updateFirst, if_pos hf]
      by_cases hqf : q f = true
      · rw [List.filter_cons_of_pos (by simp [hq f, hqf]),
          List.filter_cons_of_pos (by simp [hqf])]
        simp
      · rw [List.filter_cons_of_neg (by simp [hq f, hqf]),
          List.filter_cons_of_neg (by simp [hqf])]
    · rw [updateFirst, if_neg hf]
      by_cases hqf : q f = true
      · rw [List.filter_cons_of_pos (by simp [hqf]),
          List.filter_cons_of_pos (by simp [hqf])]
        simpa using ih
      · rw [List.filter_cons_of_neg (by simp [hqf]),
          List.filter_cons_of_neg (by simp [hqf]), ih]

/-- The collection after a working-copy save: the first default record is
updated in place when one exists, otherwise a fresh one is prepended. -/
theorem getAllFiles_saveDefaultFile (s : Store) (c now : String) :
    getAllFiles (saveDefaultFile s c now) =
      if (getAllFiles s).any (fun f => f.id = "default") then
        updateFirst (fun f => f.id = "default")
          (fun f => { f with content := c, lastModified := now })
          (getAllFiles s)
      else
        { id := "default", name := "default", content := c,
          createdAt := now, lastModified := now } :: getAllFiles s := by
  simp only [saveDefaultFile, saveAllFiles, getAllFiles]

/-- Reading back a just-written collection. -/
theorem getAllFiles_saveAllFiles (s : Store) (l : List Snapshot) :
    getAllFiles (saveAllFiles s l) = l := rfl

/-- `createSnapshot` on a name the validation rejects. -/
theorem createSnapshot_error {s : Store} {name : String} {e : NameError}
    (content now : String) (ms : Nat) (r : String)
    (h : validateFileName name (getAllFiles s) = some e) :
    createSnapshot s name content now ms r = (s, .error e) := by
  simp only [createSnapshot, h]

/-- `createSnapshot` on a name the validation accepts: the fresh record
is appended at the end of the collection. -/
theorem createSnapshot_ok {s : Store} {name : String}
    (content now : String) (ms : Nat) (r : String)
    (h : validateFileName name (getAllFiles s) = none) :
    createSnapshot s name content now ms r =
      (saveAllFiles s (getAllFiles s ++
        [{ id := freshId ms r, name := name, content := content,
           createdAt := now, lastModified := now }]),
       .ok { id := freshId ms r, name := name, content := content,
             createdAt := now, lastModified := now }) := by
  simp only [createSnapshot, h, saveFile]

/-! ## Claim theorems -/

/-- **C3, counterexample.** The claim states that whenever a working copy
exists, `getWorkingCopy()` returns its content.  After
`saveWorkingCopy("")` the working copy exists (a collection record with
id `"default"` and content `""` is materialized), yet `getWorkingCopy()`
returns the seed diagram, which differs from `""`. -/
theorem c3_counterexample :
    (getAllFiles (saveDefaultFile emptyStore "" "t0")).map
        (fun f => (f.id, f.content)) = [("default", "")] ∧
    loadDefaultFile (saveDefaultFile emptyStore "" "t0") = seedDiagram ∧
    seedDiagram ≠ "" := ⟨rfl, rfl, by decide⟩

/-- **C3, amended.** `getWorkingCopy()` is total: on a fresh store it
returns the seed diagram, and after the working copy is saved with
*non-empty* content it returns that content (empty content falls back to
the seed — see C9). -/
theorem c3_getWorkingCopy_total :
    loadDefaultFile emptyStore = seedDiagram ∧
    (∀ (s : Store) (c now : String), c ≠ "" →
      loadDefaultFile (saveDefaultFile s c now) = c) := by
  refine ⟨rfl, fun s c now hc => ?_⟩
  rw [loadDefaultFile_saveDefaultFile, if_neg hc]

/-- Witness for C3: a concrete non-empty save reads back unchanged. -/
theorem c3_witness :
    ("@startuml\nX\n@enduml" : String) ≠ "" ∧
    loadDefaultFile (saveDefaultFile emptyStore "@startuml\nX\n@enduml" "t1") =
      "@startuml\nX\n@enduml" :=
  ⟨by decide, c3_getWorkingCopy_total.2 emptyStore "@startuml\nX\n@enduml" "t1"
    (by decide)⟩

/-- **C9.** The falsy fallback of `loadDefaultFile`: empty persisted
working-copy content yields the seed diagram, so the
save-then-read round trip holds exactly for non-empty content. -/
theorem c9_empty_content_seed :
    (∀ (s : Store) (now : String),
      loadDefaultFile (saveDefaultFile s "" now) = seedDiagram) ∧
    (∀ (s : Store) (c now : String), c ≠ "" →
      loadDefaultFile (saveDefaultFile s c now) = c) ∧
    seedDiagram ≠ "" := by
  refine ⟨fun s now => ?_, fun s c now hc => ?_, by decide⟩
  · rw [loadDefaultFile_saveDefaultFile, if_pos rfl]
  · rw [loadDefaultFile_saveDefaultFile, if_neg hc]

/-- Witness for C9: the round trip at the concrete content `"x"`. -/
theorem c9_witness :
    loadDefaultFile (saveDefaultFile emptyStore "" "t0") = seedDiagram ∧
    (("x" : String) ≠ "" ∧
      loadDefaultFile (saveDefaultFile emptyStore "x" "t0") = "x") :=
  ⟨c9_empty_content_seed.1 emptyStore "t0",
   by decide, c9_empty_content_seed.2.1 emptyStore "x" "t0" (by decide)⟩

/-- **C4, counterexample.** The claim asserts that for *every* collection
state the working copy is present in `listAll()` before and after
`deleteSnapshot("default")`; on the fresh store the call is refused but
no working copy is present in the collection at all. -/
theorem c4_counterexample :
    deleteFile emptyStore "default" = (emptyStore, false) ∧
    getAllFiles emptyStore = [] := ⟨rfl, rfl⟩

/-- **C4, amended.** For every collection state,
`deleteSnapshot("default")` is refused with the store returned untouched
— the result does not depend on the store contents at all, i.e. the
refusal is decided before any store access — so whenever the working
copy is present in `listAll()` before the call it is present with
unchanged content after; and for every id absent from the collection,
`deleteSnapshot(id)` is a no-op on the store. -/
theorem c4_delete_refusal_noop :
    (∀ s : Store, deleteFile s "default" = (s, false)) ∧
    (∀ (s : Store) (fileId : String),
      (∀ f ∈ getAllFiles s, f.id ≠ fileId) →
      deleteFile s fileId = (s, false)) := by
  refine ⟨fun s => by simp [deleteFile], fun s fileId h => ?_⟩
  by_cases hid : fileId = "default"
  · simp [deleteFile, hid]
  · have hfil : (getAllFiles s).filter (fun f => f.id ≠ fileId) =
        getAllFiles s :=
      List.filter_eq_self.mpr fun f hf => decide_eq_true (h f hf)
    simp only [deleteFile, if_neg hid, hfil]
    simp

/-- Witness for C4: deleting a missing id on a concrete store is a
no-op. -/
theorem c4_witness :
    (∀ f ∈ getAllFiles emptyStore, f.id ≠ "nope") ∧
    deleteFile emptyStore "nope" = (emptyStore, false) :=
  ⟨by simp [getAllFiles, emptyStore],
   c4_delete_refusal_noop.2 emptyStore "nope"
     (by simp [getAllFiles, emptyStore])⟩

/-- **C6.** `saveWorkingCopy` is idempotent under repeated identical
content: starting from any store holding at most one working-copy record,
after `saveDefaultFile t` twice the working copy's record differs from
its value after the first call only in `lastModified`, its content is
`t`, `getWorkingCopy()` reads the same value, and the collection holds
exactly one record with id `"default"`. -/
theorem c6_saveWorkingCopy_idempotent (s : Store) (t n1 n2 : String)
    (h : ((getAllFiles s).filter (fun f => f.id = "default")).length ≤ 1) :
    ∃ d1 d2,
      (getAllFiles (saveDefaultFile s t n1)).find?
        (fun f => f.id = "default") = some d1 ∧
      (getAllFiles (saveDefaultFile (saveDefaultFile s t n1) t n2)).find?
        (fun f => f.id = "default") = some d2 ∧
      d1.content = t ∧
      d2 = { d1 with lastModified := n2 } ∧
      loadDefaultFile (saveDefaultFile (saveDefaultFile s t n1) t n2) =
        loadDefaultFile (saveDefaultFile s t n1) ∧
      ((getAllFiles (saveDefaultFile (saveDefaultFile s t n1) t n2)).filter
        (fun f => f.id = "default")).length = 1 := by
  have hid1 : ∀ x : Snapshot,
      (decide (({ x with content := t, lastModified := n1 } : Snapshot).id =
        "default")) = decide (x.id = "default") := fun x => rfl
  have hid2 : ∀ x : Snapshot,
      (decide (({ x with content := t, lastModified := n2 } : Snapshot).id =
        "default")) = decide (x.id = "default") := fun x => rfl
  have hload : loadDefaultFile (saveDefaultFile (saveDefaultFile s t n1) t n2)
      = loadDefaultFile (saveDefaultFile s t n1) := by
    rw [loadDefaultFile_saveDefaultFile, loadDefaultFile_saveDefaultFile]
  by_cases hany : (getAllFiles s).any (fun f => f.id = "default") = true
  · obtain ⟨d0, hd0⟩ := Option.isSome_iff_exists.mp
      (List.find?_isSome.mpr (List.any_eq_true.mp hany))
    have hfiles1 : getAllFiles (saveDefaultFile s t n1) =
        updateFirst (fun f => f.id = "default")
          (fun f => { f with content := t, lastModified := n1 })
          (getAllFiles s) := by
      rw [getAllFiles_saveDefaultFile, if_pos hany]
    have hfind1 : (getAllFiles (saveDefaultFile s t n1)).find?
        (fun f => f.id = "default") =
          some { d0 with content := t, lastModified := n1 } := by
      rw [hfiles1, updateFirst_find?_self _ _ hid1, hd0, Option.map_some']
    have hany1 : (getAllFiles (saveDefaultFile s t n1)).any
        (fun f => f.id = "default") = true := by
      refine List.any_eq_true.mpr ⟨_, List.mem_of_find?_eq_some hfind1, ?_⟩
      have hpd0 := List.find?_some hd0
      exact hpd0
    have hfiles2 : getAllFiles (saveDefaultFile (saveDefaultFile s t n1) t n2)
        = updateFirst (fun f => f.id = "default")
          (fun f => { f with content := t, lastModified := n2 })
          (getAllFiles (saveDefaultFile s t n1)) := by
      rw [getAllFiles_saveDefaultFile, if_pos hany1]
    have hfind2 : (getAllFiles (saveDefaultFile (saveDefaultFile s t n1)
        t n2)).find? (fun f => f.id = "default") =
          some { d0 with content := t, lastModified := n2 } := by
      rw [hfiles2, updateFirst_find?_self _ _ hid2, hfind1, Option.map_some']
    have hcount0 : ((getAllFiles s).filter
        (fun f => f.id = "default")).length = 1 := by
      have hne : (getAllFiles s).filter (fun f => f.id = "default") ≠ [] := by
        intro hnil
        have := List.filter_eq_nil_iff.mp hnil d0
          (List.mem_of_find?_eq_some hd0)
        simp [List.find?_some hd0] at this
      have := List.length_pos.mpr hne
      omega
    have hcount2 : ((getAllFiles (saveDefaultFile (saveDefaultFile s t n1)
        t n2)).filter (fun f => f.id = "default")).length = 1 := by
      rw [hfiles2, updateFirst_filter_length _ _ _ hid2, hfiles1,
        updateFirst_filter_length _ _ _ hid1, hcount0]
    exact ⟨_, _, hfind1, hfind2, rfl, rfl, hload, hcount2⟩
  · have hany' : (getAllFiles s).any (fun f => f.id = "default") = false :=
      Bool.not_eq_true _ ▸ eq_false_of_ne_true hany
    have hfiles1 : getAllFiles (saveDefaultFile s t n1) =
        { id := "default", name := "default", content := t,
          createdAt := n1, lastModified := n1 } :: getAllFiles s := by
      rw [getAllFiles_saveDefaultFile, if_neg (by simp [hany'])]
    have hfind1 : (getAllFiles (saveDefaultFile s t n1)).find?
        (fun f => f.id = "default") =
          some { id := "default", name := "default", content := t,
                 createdAt := n1, lastModified := n1 } := by
      rw [hfiles1, List.find?_cons_of_pos _ (by simp)]
    have hany1 : (getAllFiles (saveDefaultFile s t n1)).any
        (fun f => f.id = "default") = true := by
      refine List.any_eq_true.mpr ⟨_, List.mem_of_find?_eq_some hfind1, ?_⟩
      rfl
    have hfiles2 : getAllFiles (saveDefaultFile (saveDefaultFile s t n1) t n2)
        = updateFirst (fun f => f.id = "default")
          (fun f => { f with content := t, lastModified := n2 })
          (getAllFiles (saveDefaultFile s t n1)) := by
      rw [getAllFiles_saveDefaultFile, if_pos hany1]
    have hfind2 : (getAllFiles (saveDefaultFile (saveDefaultFile s t n1)
        t n2)).find? (fun f => f.id = "default") =
          some { id := "default", name := "default", content := t,
                 createdAt := n1, lastModified := n2 } := by
      rw [hfiles2, updateFirst_find?_self _ _ hid2, hfind1, Option.map_some']
    have hfilter0 : (getAllFiles s).filter (fun f => f.id = "default") = [] :=
      List.filter_eq_nil_iff.mpr fun f hf => by
        intro hpf
        exact hany (List.any_eq_true.mpr ⟨f, hf, hpf⟩)
    have hcount2 : ((getAllFiles (saveDefaultFile (saveDefaultFile s t n1)
        t n2)).filter (fun f => f.id = "default")).length = 1 := by
      rw [hfiles2, updateFirst_filter_length _ _ _ hid2, hfiles1,
        List.filter_cons_of_pos (by simp), hfilter0]
      rfl
    exact ⟨_, _, hfind1, hfind2, rfl, rfl, hload, hcount2⟩

/-- Witness for C6: two identical saves on the fresh store. -/
theorem c6_witness :
    ((getAllFiles emptyStore).filter (fun f => f.id = "default")).length ≤ 1 ∧
    ∃ d1 d2,
      (getAllFiles (saveDefaultFile emptyStore "x" "t1")).find?
        (fun f => f.id = "default") = some d1 ∧
      (getAllFiles (saveDefaultFile (saveDefaultFile emptyStore "x" "t1")
        "x" "t2")).find? (fun f => f.id = "default") = some d2 ∧
      d1.content = "x" ∧
      d2 = { d1 with lastModified := "t2" } ∧
      loadDefaultFile (saveDefaultFile (saveDefaultFile emptyStore "x" "t1")
        "x" "t2") = loadDefaultFile (saveDefaultFile emptyStore "x" "t1") ∧
      ((getAllFiles (saveDefaultFile (saveDefaultFile emptyStore "x" "t1")
        "x" "t2")).filter (fun f => f.id = "default")).length = 1 :=
  ⟨by decide,
   c6_saveWorkingCopy_idempotent emptyStore "x" "t1" "t2" (by decide)⟩

/-- **C7.** A corrupted persisted collection is read as the empty
collection, and every operation built on the read behaves exactly as on
a store holding an empty collection: same returned values and same
resulting collection. -/
theorem c7_corrupt_degrades_to_empty (d : Option String)
    (name content now fileId : String) (ms : Nat) (r : String) :
    getAllFiles ⟨.corrupt, d⟩ = [] ∧
    saveDefaultFile ⟨.corrupt, d⟩ content now =
      saveDefaultFile ⟨.valid [], d⟩ content now ∧
    (createSnapshot ⟨.corrupt, d⟩ name content now ms r).2 =
      (createSnapshot ⟨.valid [], d⟩ name content now ms r).2 ∧
    getAllFiles (createSnapshot ⟨.corrupt, d⟩ name content now ms r).1 =
      getAllFiles (createSnapshot ⟨.valid [], d⟩ name content now ms r).1 ∧
    (deleteFile ⟨.corrupt, d⟩ fileId).2 =
      (deleteFile ⟨.valid [], d⟩ fileId).2 ∧
    getAllFiles (deleteFile ⟨.corrupt, d⟩ fileId).1 =
      getAllFiles (deleteFile ⟨.valid [], d⟩ fileId).1 ∧
    (loadFileIntoEditor ⟨.corrupt, d⟩ fileId now).2 =
      (loadFileIntoEditor ⟨.valid [], d⟩ fileId now).2 ∧
    getAllFiles (loadFileIntoEditor ⟨.corrupt, d⟩ fileId now).1 =
      getAllFiles (loadFileIntoEditor ⟨.valid [], d⟩ fileId now).1 := by
  refine ⟨rfl, rfl, ?_, ?_, ?_, ?_, rfl, rfl⟩
  · cases hval : validateFileName name ([] : List Snapshot) with
    | some e =>
      rw [createSnapshot_error content now ms r hval,
        createSnapshot_error content now ms r hval]
    | none =>
      rw [createSnapshot_ok content now ms r hval,
        createSnapshot_ok content now ms r hval]
  · cases hval : validateFileName name ([] : List Snapshot) with
    | some e =>
      rw [createSnapshot_error content now ms r hval,
        createSnapshot_error content now ms r hval]
      rfl
    | none =>
      rw [createSnapshot_ok content now ms r hval,
        createSnapshot_ok content now ms r hval]
      rfl
  · by_cases hid : fileId = "default" <;> simp [deleteFile, hid, getAllFiles]
  · by_cases hid : fileId = "default" <;> simp [deleteFile, hid, getAllFiles]

/-- **C1, counterexample.** The claim's scenario: from a fresh (empty)
store, `createSnapshot("Sequence 1", ...)` succeeds, but `listAll()`
returns a single record — the named snapshot alone.  `createSnapshot`
never materializes the working copy, so no record with id `"default"`
exists and the result is not `[default, Sequence 1]`. -/
theorem c1_counterexample :
    (createSnapshot emptyStore "Sequence 1" "@startuml\nA->B\n@enduml" "t1" 0
      "r").2.isOk = true ∧
    (getAllFiles (createSnapshot emptyStore "Sequence 1"
      "@startuml\nA->B\n@enduml" "t1" 0 "r").1).map
        (fun f => (f.id, f.name)) = [("file-0-r", "Sequence 1")] ∧
    ("file-0-r" : String) ≠ "default" := ⟨rfl, rfl, by decide⟩

/-- **C1, amended.** `listAll()` keeps the working copy first whenever it
is materialized and the named snapshots in creation order: a successful
`createSnapshot` appends its record at the end of the collection (so an
existing front working copy stays first); and from a fresh store, once
the working copy has been materialized by a `saveWorkingCopy`, a
successful `createSnapshot("Sequence 1", ...)` makes `listAll()` return
`[default, Sequence 1]` in that order. -/
theorem c1_listAll_order :
    (∀ (s : Store) (name content now : String) (ms : Nat) (r : String)
        (f : Snapshot),
      (createSnapshot s name content now ms r).2 = .ok f →
      getAllFiles (createSnapshot s name content now ms r).1 =
        getAllFiles s ++ [f]) ∧
    (∀ (t n1 content n2 : String) (ms : Nat) (r : String),
      (createSnapshot (saveDefaultFile emptyStore t n1) "Sequence 1" content
        n2 ms r).2.isOk = true ∧
      (getAllFiles (createSnapshot (saveDefaultFile emptyStore t n1)
        "Sequence 1" content n2 ms r).1).map (fun f => (f.id, f.name)) =
        [("default", "default"), (freshId ms r, "Sequence 1")]) := by
  constructor
  · intro s name content now ms r f hok
    cases hval : validateFileName name (getAllFiles s) with
    | some e =>
      rw [createSnapshot_error content now ms r hval] at hok
      exact absurd hok (by simp)
    | none =>
      rw [createSnapshot_ok content now ms r hval] at hok ⊢
      obtain rfl : _ = f := Except.ok.inj hok
      exact getAllFiles_saveAllFiles _ _
  · intro t n1 content n2 ms r
    have hname : (getAllFiles (saveDefaultFile emptyStore t n1)).any
        (fun f => f.name = "Sequence 1") = false := rfl
    have hval : validateFileName "Sequence 1"
        (getAllFiles (saveDefaultFile emptyStore t n1)) = none := by
      rw [validateFileName, if_neg (by decide), if_neg (by decide),
        if_neg (by simp [hname])]
    rw [createSnapshot_ok content n2 ms r hval]
    exact ⟨rfl, rfl⟩

/-- Witness for C1: the appended-at-the-end fact and the scenario, both
at concrete inputs. -/
theorem c1_witness :
    ((createSnapshot emptyStore "A" "x" "t0" 0 "r0").2 =
      .ok { id := "file-0-r0", name := "A", content := "x",
            createdAt := "t0", lastModified := "t0" } ∧
     getAllFiles (createSnapshot emptyStore "A" "x" "t0" 0 "r0").1 =
       getAllFiles emptyStore ++
         [{ id := "file-0-r0", name := "A", content := "x",
            createdAt := "t0", lastModified := "t0" }]) ∧
    ((createSnapshot (saveDefaultFile emptyStore "w" "t0") "Sequence 1" "c"
      "t1" 1 "r1").2.isOk = true ∧
     (getAllFiles (createSnapshot (saveDefaultFile emptyStore "w" "t0")
       "Sequence 1" "c" "t1" 1 "r1").1).map (fun f => (f.id, f.name)) =
       [("default", "default"), (freshId 1 "r1", "Sequence 1")]) :=
  ⟨⟨rfl, c1_listAll_order.1 emptyStore "A" "x" "t0" 0 "r0" _ rfl⟩,
   c1_listAll_order.2 "w" "t0" "c" "t1" 1 "r1"⟩

/-- **C5, counterexample.** A snapshot may be created with empty content;
loading it into the working copy succeeds, but a subsequent
`getWorkingCopy()` returns the seed diagram instead of the snapshot's
(empty) content, because of the falsy fallback in `loadDefaultFile`. -/
theorem c5_counterexample :
    ((getAllFiles (createSnapshot emptyStore "A" "" "t0" 0 "r").1).find?
      (fun f => f.id = "file-0-r")).map (fun f => f.content) = some "" ∧
    (loadFileIntoEditor (createSnapshot emptyStore "A" "" "t0" 0 "r").1
      "file-0-r" "t1").2 = some "" ∧
    loadDefaultFile (loadFileIntoEditor (createSnapshot emptyStore "A" ""
      "t0" 0 "r").1 "file-0-r" "t1").1 = seedDiagram ∧
    seedDiagram ≠ "" := ⟨rfl, rfl, rfl, by decide⟩

/-- **C5, amended.** For every snapshot id present in the collection,
`loadIntoWorkingCopy(id)` returns that snapshot's content, makes a
subsequent `getWorkingCopy()` return it provided it is non-empty (empty
content falls back to the seed — see C9), leaves the target snapshot's
`content`, `createdAt` and `name` unchanged, and, when the working copy
already existed, keeps its `createdAt` while setting its `lastModified`
to the save time. -/
theorem c5_loadIntoWorkingCopy (s : Store) (fileId now : String)
    (f : Snapshot)
    (hf : (getAllFiles s).find? (fun x => x.id = fileId) = some f) :
    (loadFileIntoEditor s fileId now).2 = some f.content ∧
    (f.content ≠ "" →
      loadDefaultFile (loadFileIntoEditor s fileId now).1 = f.content) ∧
    (∃ f', (getAllFiles (loadFileIntoEditor s fileId now).1).find?
        (fun x => x.id = fileId) = some f' ∧
      f'.content = f.content ∧ f'.createdAt = f.createdAt ∧
      f'.name = f.name) ∧
    (∀ d, (getAllFiles s).find? (fun x => x.id = "default") = some d →
      ∃ d', (getAllFiles (loadFileIntoEditor s fileId now).1).find?
          (fun x => x.id = "default") = some d' ∧
        d'.createdAt = d.createdAt ∧ d'.lastModified = now) := by
  have hle : loadFileIntoEditor s fileId now =
      (saveDefaultFile s f.content now, some f.content) := by
    simp only [loadFileIntoEditor, hf]
  have hidpres : ∀ x : Snapshot,
      (decide (({ x with content := f.content, lastModified := now } :
        Snapshot).id = "default")) = decide (x.id = "default") :=
    fun x => rfl
  refine ⟨by rw [hle], fun hc => ?_, ?_, fun d hd => ?_⟩
  · rw [hle]
    rw [loadDefaultFile_saveDefaultFile, if_neg hc]
  · rw [hle]
    by_cases hany : (getAllFiles s).any (fun x => x.id = "default") = true
    · have hfiles : getAllFiles (saveDefaultFile s f.content now) =
          updateFirst (fun x => x.id = "default")
            (fun x => { x with content := f.content, lastModified := now })
            (getAllFiles s) := by
        rw [getAllFiles_saveDefaultFile, if_pos hany]
      by_cases hfid : fileId = "default"
      · subst hfid
        refine ⟨{ f with content := f.content, lastModified := now }, ?_,
          rfl, rfl, rfl⟩
        rw [hfiles, updateFirst_find?_self _ _ hidpres, hf,
          Option.map_some']
      · refine ⟨f, ?_, rfl, rfl, rfl⟩
        have hpq : ∀ x : Snapshot, (decide (x.id = "default")) = true →
            (decide (x.id = fileId)) = false := by
          intro x hx
          have hxid : x.id = "default" := of_decide_eq_true hx
          rw [hxid]
          exact decide_eq_false fun h => hfid h.symm
        rw [hfiles, updateFirst_find?_other (fun x => x.id = "default")
          (fun x => x.id = fileId)
          (fun x => { x with content := f.content, lastModified := now })
          (fun x => rfl) hpq, hf]
    · have hfiles : getAllFiles (saveDefaultFile s f.content now) =
          { id := "default", name := "default", content := f.content,
            createdAt := now, lastModified := now } :: getAllFiles s := by
        rw [getAllFiles_saveDefaultFile, if_neg hany]
      by_cases hfid : fileId = "default"
      · subst hfid
        exact absurd (List.any_eq_true.mpr
          ⟨f, List.mem_of_find?_eq_some hf, List.find?_some hf⟩) hany
      · refine ⟨f, ?_, rfl, rfl, rfl⟩
        rw [hfiles, List.find?_cons_of_neg, hf]
        simp only [decide_eq_true_eq]
        exact fun h => hfid h.symm
  · have hpd := List.find?_some hd
    have hany : (getAllFiles s).any (fun x => x.id = "default") = true :=
      List.any_eq_true.mpr ⟨d, List.mem_of_find?_eq_some hd, hpd⟩
    have hfiles : getAllFiles (saveDefaultFile s f.content now) =
        updateFirst (fun x => x.id = "default")
          (fun x => { x with content := f.content, lastModified := now })
          (getAllFiles s) := by
      rw [getAllFiles_saveDefaultFile, if_pos hany]
    refine ⟨{ d with content := f.content, lastModified := now }, ?_, rfl,
      rfl⟩
    rw [hle, hfiles, updateFirst_find?_self _ _ hidpres, hd,
      Option.map_some']

/-- Witness for C5: loading a concrete snapshot from a store holding a
working copy and one named snapshot. -/
theorem c5_witness :
    ((getAllFiles (createSnapshot (saveDefaultFile emptyStore "w" "t0") "A"
      "hello" "t1" 5 "rr").1).find? (fun x => x.id = "file-5-rr") =
        some ⟨"file-5-rr", "A", "hello", "t1", "t1"⟩) ∧
    ((loadFileIntoEditor (createSnapshot (saveDefaultFile emptyStore "w"
        "t0") "A" "hello" "t1" 5 "rr").1 "file-5-rr" "t2").2 =
      some "hello" ∧
     (("hello" : String) ≠ "" →
       loadDefaultFile (loadFileIntoEditor (createSnapshot
         (saveDefaultFile emptyStore "w" "t0") "A" "hello" "t1" 5 "rr").1
         "file-5-rr" "t2").1 = "hello") ∧
     (∃ f', (getAllFiles (loadFileIntoEditor (createSnapshot
         (saveDefaultFile emptyStore "w" "t0") "A" "hello" "t1" 5 "rr").1
         "file-5-rr" "t2").1).find? (fun x => x.id = "file-5-rr") =
           some f' ∧
       f'.content = "hello" ∧ f'.createdAt = "t1" ∧ f'.name = "A") ∧
     (∀ d, (getAllFiles (createSnapshot (saveDefaultFile emptyStore "w"
         "t0") "A" "hello" "t1" 5 "rr").1).find?
           (fun x => x.id = "default") = some d →
       ∃ d', (getAllFiles (loadFileIntoEditor (createSnapshot
           (saveDefaultFile emptyStore "w" "t0") "A" "hello" "t1" 5
           "rr").1 "file-5-rr" "t2").1).find?
             (fun x => x.id = "default") = some d' ∧
         d'.createdAt = d.createdAt ∧ d'.lastModified = "t2")) :=
  ⟨rfl, c5_loadIntoWorkingCopy _ "file-5-rr" "t2"
    ⟨"file-5-rr", "A", "hello", "t1", "t1"⟩ rfl⟩


/-- **C8.** The autosave is a trailing debounce with a fixed 2000 ms
delay: over any nonempty trace of buffer-change events in which each
event arrives strictly within the debounce window of its predecessor,
exactly one `saveDefaultFile` call occurs, at exactly the window's length
after the last event (every earlier pending timer is cancelled and
replaced, so no call fires while newer events keep arriving). -/
theorem c8_autosave_debounce (ts : List Nat) (hne : ts ≠ [])
    (hwin : List.Chain' (fun a b => b < a + autosaveDelay) ts) :
    autosaveCalls ts = [ts.getLast hne + autosaveDelay] := by
  induction ts with
  | nil => exact absurd rfl hne
  | cons t rest ih =>
    cases rest with
    | nil => rfl
    | cons t2 rest2 =>
      rw [List.chain'_cons] at hwin
      have hne2 : t2 :: rest2 ≠ [] := List.cons_ne_nil _ _
      have hstep : autosaveCalls (t :: t2 :: rest2) =
          autosaveCalls (t2 :: rest2) := by
        simp only [autosaveCalls, debounceFires, if_pos hwin.1]
      rw [hstep, ih hne2 hwin.2, List.getLast_cons hne2]

/-- Witness for C8: three events at 0, 1000 and 1500 ms produce exactly
one save, at 3500 ms. -/
theorem c8_witness :
    ([0, 1000, 1500] : List Nat) ≠ [] ∧
    List.Chain' (fun a b => b < a + autosaveDelay) [0, 1000, 1500] ∧
    autosaveCalls [0, 1000, 1500] = [1500 + autosaveDelay] := by
  have hchain : List.Chain' (fun a b => b < a + autosaveDelay)
      [0, 1000, 1500] :=
    List.chain'_cons.mpr ⟨by norm_num [autosaveDelay],
      List.chain'_cons.mpr ⟨by norm_num [autosaveDelay],
        List.chain'_singleton _⟩⟩
  exact ⟨by decide, hchain,
    c8_autosave_debounce [0, 1000, 1500] (by decide) hchain⟩

/-- Every UTF-8 byte is below 256. -/
theorem utf8EncodeChar_lt (c : Char) : ∀ b ∈ utf8EncodeChar c, b < 256 := by
  have hv : c.toNat < 1114112 := by
    rcases c.valid with h | ⟨h1, h2⟩
    · exact lt_trans h (by norm_num)
    · exact h2
  intro b hb
  simp only [utf8EncodeChar] at hb
  split_ifs at hb with h1 h2 h3 <;> simp only [List.mem_cons,
    List.not_mem_nil, or_false] at hb <;> omega

/-- With any extra fuel beyond the byte count, decoding inverts the
character-by-character UTF-8 encoding. -/
theorem utf8DecodeAux_encode : ∀ (l : List Char) (extra : Nat),
    utf8DecodeAux ((l.map utf8EncodeChar).flatten.length + extra)
      ((l.map utf8EncodeChar).flatten) = some l := by
  intro l
  induction l with
  | nil => intro extra; simp [utf8DecodeAux]
  | cons c cs ih =>
    intro extra
    have hv : c.toNat < 1114112 := by
      rcases c.valid with h | ⟨h1, h2⟩
      · exact lt_trans h (by norm_num)
      · exact h2
    have hvalid : Nat.isValidChar c.toNat := c.valid
    rw [List.map_cons, List.flatten_cons]
    simp only [utf8EncodeChar]
    split_ifs with h1 h2 h3
    · simp only [List.singleton_append, List.length_cons]
      have hfe : ((cs.map utf8EncodeChar).flatten).length + 1 + extra =
          ((cs.map utf8EncodeChar).flatten).length + extra + 1 := by omega
      rw [hfe]
      simp only [utf8DecodeAux, utf8DecodeChar, if_pos h1,
        Char.ofNat_toNat]
      rw [ih extra]
      rfl
    · simp only [List.cons_append, List.nil_append, List.length_cons]
      have hfe : ((cs.map utf8EncodeChar).flatten).length + 1 + 1 + extra =
          ((cs.map utf8EncodeChar).flatten).length + (1 + extra) + 1 := by
        omega
      rw [hfe]
      simp only [utf8DecodeAux, utf8DecodeChar]
      rw [if_neg (by omega), if_neg (by omega), if_pos (by omega),
        if_pos (⟨by omega, by omega⟩ : 0x80 ≤ 128 + c.toNat % 64 ∧
          128 + c.toNat % 64 < 0xC0)]
      have hval : (192 + c.toNat / 64 - 192) * 64 +
          (128 + c.toNat % 64 - 128) = c.toNat := by omega
      rw [hval, if_pos hvalid, Char.ofNat_toNat]
      show (utf8DecodeAux _ _).map _ = _
      rw [ih (1 + extra)]
      rfl
    · simp only [List.cons_append, List.nil_append, List.length_cons]
      have hfe : ((cs.map utf8EncodeChar).flatten).length + 1 + 1 + 1 +
          extra =
          ((cs.map utf8EncodeChar).flatten).length + (2 + extra) + 1 := by
        omega
      rw [hfe]
      simp only [utf8DecodeAux, utf8DecodeChar]
      rw [if_neg (by omega), if_neg (by omega), if_neg (by omega),
        if_pos (by omega),
        if_pos (⟨⟨by omega, by omega⟩, by omega, by omega⟩ :
          (0x80 ≤ 128 + c.toNat / 64 % 64 ∧ 128 + c.toNat / 64 % 64 < 0xC0)
          ∧ 0x80 ≤ 128 + c.toNat % 64 ∧ 128 + c.toNat % 64 < 0xC0)]
      have hval : (224 + c.toNat / 4096 - 224) * 4096 +
          (128 + c.toNat / 64 % 64 - 128) * 64 +
          (128 + c.toNat % 64 - 128) = c.toNat := by omega
      rw [hval, if_pos hvalid, Char.ofNat_toNat]
      show (utf8DecodeAux _ _).map _ = _
      rw [ih (2 + extra)]
      rfl
    · simp only [List.cons_append, List.nil_append, List.length_cons]
      have hfe : ((cs.map utf8EncodeChar).flatten).length + 1 + 1 + 1 + 1 +
          extra =
          ((cs.map utf8EncodeChar).flatten).length + (3 + extra) + 1 := by
        omega
      rw [hfe]
      simp only [utf8DecodeAux, utf8DecodeChar]
      rw [if_neg (by omega), if_neg (by omega), if_neg (by omega),
        if_neg (by omega),
        if_pos (⟨⟨by omega, by omega⟩, ⟨by omega, by omega⟩, by omega,
            by omega⟩ :
          (0x80 ≤ 128 + c.toNat / 4096 % 64 ∧
            128 + c.toNat / 4096 % 64 < 0xC0) ∧
          (0x80 ≤ 128 + c.toNat / 64 % 64 ∧ 128 + c.toNat / 64 % 64 < 0xC0)
          ∧ 0x80 ≤ 128 + c.toNat % 64 ∧ 128 + c.toNat % 64 < 0xC0)]
      have hval : (240 + c.toNat / 262144 - 240) * 262144 +
          (128 + c.toNat / 4096 % 64 - 128) * 4096 +
          (128 + c.toNat / 64 % 64 - 128) * 64 +
          (128 + c.toNat % 64 - 128) = c.toNat := by omega
      rw [hval, if_pos hvalid, Char.ofNat_toNat]
      show (utf8DecodeAux _ _).map _ = _
      rw [ih (3 + extra)]
      rfl

/-- UTF-8 decode inverts UTF-8 encode on strings. -/
theorem utf8Decode_utf8Encode (t : String) :
    utf8Decode (utf8Encode t) = some t.data := by
  have h := utf8DecodeAux_encode t.data 0
  simpa [utf8Decode, utf8Encode] using h

/-- Every byte of the UTF-8 encoding of a string is below 256. -/
theorem utf8Encode_lt (t : String) : ∀ b ∈ utf8Encode t, b < 256 := by
  intro b hb
  unfold utf8Encode at hb
  obtain ⟨l, hl, hbl⟩ := List.mem_flatten.mp hb
  obtain ⟨c, -, rfl⟩ := List.mem_map.mp hl
  exact utf8EncodeChar_lt c b hbl

/-- Reassembling base64 sextets inverts splitting, for byte inputs. -/
theorem b64Unchunks_b64Chunks : ∀ bytes : List Nat,
    (∀ b ∈ bytes, b < 256) → b64Unchunks (b64Chunks bytes) = bytes
  | [], _ => rfl
  | [b1], h => by
    have hb1 : b1 < 256 := h b1 (by simp)
    simp only [b64Chunks, b64Unchunks, List.cons.injEq, and_true]
    omega
  | [b1, b2], h => by
    have hb1 : b1 < 256 := h b1 (by simp)
    have hb2 : b2 < 256 := h b2 (by simp)
    simp only [b64Chunks, b64Unchunks, List.cons.injEq, and_true]
    refine ⟨by omega, by omega⟩
  | b1 :: b2 :: b3 :: rest, h => by
    have hb1 : b1 < 256 := h b1 (by simp)
    have hb2 : b2 < 256 := h b2 (by simp)
    have hb3 : b3 < 256 := h b3 (by simp)
    have ih := b64Unchunks_b64Chunks rest (fun b hb => h b (by simp [hb]))
    simp only [b64Chunks, b64Unchunks, ih, List.cons.injEq]
    refine ⟨by omega, by omega, by omega, trivial⟩

/-- The sextet count is never ≡ 1 (mod 4). -/
theorem b64Chunks_length_mod : ∀ bytes : List Nat,
    (b64Chunks bytes).length % 4 ≠ 1
  | [] => by simp [b64Chunks]
  | [b1] => by simp [b64Chunks]
  | [b1, b2] => by simp [b64Chunks]
  | b1 :: b2 :: b3 :: rest => by
    have ih := b64Chunks_length_mod rest
    simp only [b64Chunks, List.length_cons]
    omega

/-- Splitting bytes yields 6-bit values. -/
theorem b64Chunks_lt : ∀ bytes : List Nat, (∀ b ∈ bytes, b < 256) →
    ∀ sx ∈ b64Chunks bytes, sx < 64
  | [], _ => by simp [b64Chunks]
  | [b1], h => by
    have hb1 : b1 < 256 := h b1 (by simp)
    intro sx hsx
    simp only [b64Chunks, List.mem_cons, List.not_mem_nil, or_false] at hsx
    omega
  | [b1, b2], h => by
    have hb1 : b1 < 256 := h b1 (by simp)
    have hb2 : b2 < 256 := h b2 (by simp)
    intro sx hsx
    simp only [b64Chunks, List.mem_cons, List.not_mem_nil, or_false] at hsx
    omega
  | b1 :: b2 :: b3 :: rest, h => by
    have hb1 : b1 < 256 := h b1 (by simp)
    have hb2 : b2 < 256 := h b2 (by simp)
    have hb3 : b3 < 256 := h b3 (by simp)
    have ih := b64Chunks_lt rest (fun b hb => h b (by simp [hb]))
    intro sx hsx
    simp only [b64Chunks, List.mem_cons] at hsx
    rcases hsx with rfl | rfl | rfl | rfl | hsx
    · omega
    · omega
    · omega
    · omega
    · exact ih sx hsx

/-- The facts about the base64 alphabet the round trip needs, for every
6-bit value: the index inverts the lookup, the character is in the
alphabet and is not `=`, and the URL-safe substitution round-trips on it
without producing `=`. -/
theorem b64Char_spec : ∀ n, n < 64 →
    b64Index (b64Char n) = n ∧
    b64Table.contains (b64Char n) = true ∧
    b64Char n ≠ '=' ∧
    unUrlSafeChar (urlSafeChar (b64Char n)) = b64Char n ∧
    urlSafeChar (b64Char n) ≠ '=' := by decide

/-- Leading copies of the dropped character are consumed by
`dropWhile`. -/
theorem dropWhile_replicate_append (k : Nat) (xs : List Char) :
    List.dropWhile (fun c => c = '=') (List.replicate k '=' ++ xs) =
      List.dropWhile (fun c => c = '=') xs := by
  induction k with
  | zero => rfl
  | succ k ih =>
    rw [List.replicate_succ, List.cons_append,
      List.dropWhile_cons_of_pos (by simp), ih]

/-- Stripping trailing `=` undoes `=`-padding of an `=`-free list. -/
theorem stripTrailingEq_append (l : List Char) (k : Nat)
    (hl : ∀ c ∈ l, c ≠ '=') :
    stripTrailingEq (l ++ List.replicate k '=') = l := by
  unfold stripTrailingEq
  rw [List.reverse_append, List.reverse_replicate,
    dropWhile_replicate_append]
  cases hrev : l.reverse with
  | nil =>
    have hnil : l = [] := List.reverse_eq_nil_iff.mp hrev
    simp [hnil]
  | cons c cs =>
    have hc : c ≠ '=' :=
      hl c (List.mem_reverse.mp (hrev ▸ List.mem_cons_self c cs))
    rw [List.dropWhile_cons_of_neg (by simpa using hc), ← hrev,
      List.reverse_reverse]

/-- `removePadding` leaves an `=`-free list alone. -/
theorem removePadding_eq_self (l : List Char) (hl : ∀ c ∈ l, c ≠ '=') :
    removePadding l = l := by
  unfold removePadding
  by_cases hlen : l.length % 4 = 0
  · rw [if_pos hlen]
    match hrev : l.reverse with
    | [] => rfl
    | [c1] => rfl
    | c1 :: c2 :: r =>
      have hc1 : c1 ≠ '=' :=
        hl c1 (List.mem_reverse.mp (hrev ▸ List.mem_cons_self c1 (c2 :: r)))
      show (if c1 = '=' then
          (if c2 = '=' then r.reverse else (c2 :: r).reverse)
        else l) = l
      rw [if_neg hc1]
  · rw [if_neg hlen]

/-- `removePadding` removes exactly the `=`-padding (at most two
characters) appended to an `=`-free list of padded length a multiple of
four. -/
theorem removePadding_append (l : List Char) (k : Nat)
    (hl : ∀ c ∈ l, c ≠ '=') (hk : k ≤ 2)
    (hlen : (l.length + k) % 4 = 0) :
    removePadding (l ++ List.replicate k '=') = l := by
  interval_cases k
  · rw [show List.replicate 0 '=' = ([] : List Char) from rfl,
      List.append_nil]
    exact removePadding_eq_self l hl
  · cases hrev : l.reverse with
    | nil =>
      exfalso
      have hnil : l = [] := List.reverse_eq_nil_iff.mp hrev
      rw [hnil] at hlen
      simp at hlen
    | cons c cs =>
      have hc : c ≠ '=' :=
        hl c (List.mem_reverse.mp (hrev ▸ List.mem_cons_self c cs))
      unfold removePadding
      rw [if_pos (by simp only [List.length_append,
          List.length_replicate]; omega),
        List.reverse_append, List.reverse_replicate, List.replicate_one,
        List.singleton_append, hrev]
      show (if ('=' : Char) = '=' then
          (if c = '=' then cs.reverse else (c :: cs).reverse)
        else (l ++ List.replicate 1 '=')) = l
      rw [if_pos rfl, if_neg hc, ← hrev, List.reverse_reverse]
  · unfold removePadding
    rw [if_pos (by simp only [List.length_append,
        List.length_replicate]; omega),
      List.reverse_append, List.reverse_replicate,
      show List.replicate 2 '=' = ['=', '='] from rfl,
      List.cons_append, List.cons_append, List.nil_append]
    show (if ('=' : Char) = '=' then
        (if ('=' : Char) = '=' then l.reverse.reverse
          else ('=' :: l.reverse).reverse)
      else (l ++ List.replicate 2 '=')) = l
    rw [if_pos rfl, if_pos rfl, List.reverse_reverse]

/-- **C10.** The share-encoding round trip: for every text, decoding the
URL-safe base64 encoding produced by `encodePlantuml` succeeds and
returns exactly the original text, including for non-ASCII content. -/
theorem c10_share_roundtrip (t : String) :
    decodePlantuml (encodePlantuml t) = some t := by
  have hB : ∀ b ∈ utf8Encode t, b < 256 := utf8Encode_lt t
  have hsx : ∀ n ∈ b64Chunks (utf8Encode t), n < 64 :=
    b64Chunks_lt (utf8Encode t) hB
  have hSne : ∀ c ∈ (b64Chunks (utf8Encode t)).map b64Char, c ≠ '=' := by
    intro c hc
    obtain ⟨n, hn, rfl⟩ := List.mem_map.mp hc
    exact (b64Char_spec n (hsx n hn)).2.2.1
  have hS2ne : ∀ c ∈ ((b64Chunks (utf8Encode t)).map b64Char).map
      urlSafeChar, c ≠ '=' := by
    intro c hc
    obtain ⟨d, hd, rfl⟩ := List.mem_map.mp hc
    obtain ⟨n, hn, rfl⟩ := List.mem_map.mp hd
    exact (b64Char_spec n (hsx n hn)).2.2.2.2
  have henc : encodePlantuml t =
      String.mk (((b64Chunks (utf8Encode t)).map b64Char).map
        urlSafeChar) := by
    unfold encodePlantuml btoa
    rw [List.map_append, List.map_replicate,
      show urlSafeChar '=' = '=' from rfl,
      stripTrailingEq_append _ _ hS2ne]
  have hback : ((((b64Chunks (utf8Encode t)).map b64Char).map
      urlSafeChar).map unUrlSafeChar) =
      (b64Chunks (utf8Encode t)).map b64Char := by
    rw [List.map_map]
    have h1 : ∀ c ∈ (b64Chunks (utf8Encode t)).map b64Char,
        (unUrlSafeChar ∘ urlSafeChar) c = id c := by
      intro c hc
      obtain ⟨n, hn, rfl⟩ := List.mem_map.mp hc
      exact (b64Char_spec n (hsx n hn)).2.2.2.1
    rw [List.map_congr_left h1, List.map_id]
  have hlen4 : ((b64Chunks (utf8Encode t)).map b64Char).length % 4 ≠ 1 := by
    rw [List.length_map]
    exact b64Chunks_length_mod (utf8Encode t)
  have hidx : (((b64Chunks (utf8Encode t)).map b64Char).map b64Index) =
      b64Chunks (utf8Encode t) := by
    rw [List.map_map]
    have h1 : ∀ n ∈ b64Chunks (utf8Encode t),
        (b64Index ∘ b64Char) n = id n := fun n hn =>
      (b64Char_spec n (hsx n hn)).1
    rw [List.map_congr_left h1, List.map_id]
  have hcontains : ((b64Chunks (utf8Encode t)).map b64Char).all
      (fun c => b64Table.contains c) = true := by
    rw [List.all_eq_true]
    intro c hc
    obtain ⟨n, hn, rfl⟩ := List.mem_map.mp hc
    exact (b64Char_spec n (hsx n hn)).2.1
  have hatob : atob ((b64Chunks (utf8Encode t)).map b64Char ++
      List.replicate
        ((4 - ((b64Chunks (utf8Encode t)).map b64Char).length % 4) % 4)
        '=') = some (utf8Encode t) := by
    simp only [atob]
    rw [removePadding_append _ _ hSne (by omega) (by omega),
      if_neg hlen4, if_pos hcontains, hidx,
      b64Unchunks_b64Chunks _ hB]
  rw [henc]
  simp only [decodePlantuml]
  rw [hback, hatob]
  show (utf8Decode (utf8Encode t)).map String.mk = some t
  rw [utf8Decode_utf8Encode]
  rfl

end PlantumlEditor
